import Mathlib

/-!
Shallow embedding of the core of the RobotTrading backtesting engine
(`src/backtesting/backtest_engine.py`) and of the risk calculator
(`src/risk/risk_calculator.py`), together with proofs about the claims of
the specification.

Modelling conventions:
* prices, sizes and equities are rationals (`ℚ`), replacing Python floats;
  Python's `ZeroDivisionError` cases are modelled with `Option` where a claim
  depends on them, and noted in comments otherwise;
* timestamps are integers (`ℤ`), measured in hours, so that the
  `max_position_duration_hours` comparison of the source is a plain integer
  comparison;
* Python dicts keyed by insertion order (the `positions` dict of the engine)
  are modelled as lists in insertion order;
* the optional keys of the Python position dict (`"trailing_stop"`,
  `"highest_price"`, `"lowest_price"`) become `Option` fields; the boolean
  key-presence tests (`"exit_take_profit1" in position`) become `Bool` fields.

The files `src/backtesting/simulator.py` (class `OrderSimulator`) and
`src/strategies/base_strategy.py` are not part of the sources; their
operations used by the engine (`can_open_position`, `open_position`,
`close_position`, `generate_signals`) are either taken as parameters of the
embedded `run` (admission and signal generation) or modelled from the spec
(opening and closing of a position), as marked in their doc comments.
-/

namespace RobotTrading

/-- Direction of a position, the `"LONG"` / `"SHORT"` strings of the source. -/
inductive Direction where
  | LONG : Direction
  | SHORT : Direction
deriving DecidableEq, Repr

/-- Exit reasons returned by `BacktestEngine._check_exit_conditions`, plus the
forced close reason used at the end of `BacktestEngine.run`. -/
inductive ExitReason where
  | STOP_LOSS : ExitReason
  | TAKE_PROFIT1 : ExitReason
  | TAKE_PROFIT2 : ExitReason
  | TRAILING_STOP : ExitReason
  | TIME_LIMIT : ExitReason
  | END_OF_BACKTEST : ExitReason
deriving DecidableEq, Repr

/-- One OHLCV bar, restricted to the fields the engine reads: the index
timestamp and the `close` column. -/
structure Bar where
  timestamp : ℤ
  close : ℚ
deriving DecidableEq, Repr

/-- Nearest bar to a query timestamp, the embedding of
`df.index.get_indexer([timestamp], method='nearest')` in
`BacktestEngine._get_close_price`.  For a monotonically increasing index
pandas resolves distance ties towards the later bar; processing the list
right to left and keeping the later candidate on ties reproduces this on the
sorted bar lists the engine holds. -/
def nearestBar (t : ℤ) : List Bar → Option Bar
  | [] => none
  | b :: rest =>
    match nearestBar t rest with
    | none => some b
    | some c => if |c.timestamp - t| ≤ |b.timestamp - t| then some c else some b

/-- Embedding of `BacktestEngine._get_close_price` for one pair, given the
bar list of the pair's primary timeframe: `0` when no data exists
(`df is None or df.empty`), otherwise the close of the nearest bar.  The
`idx < 0 or idx >= len(df)` guard of the source is unreachable for a
non-empty frame and needs no counterpart. -/
def get_close_price (df : List Bar) (t : ℤ) : ℚ :=
  match nearestBar t df with
  | none => 0
  | some b => b.close

/-- Market data as the engine holds it: one bar list per pair, for the
primary timeframe (the only timeframe `_get_close_price` ever reads;
secondary timeframes would only contribute extra timestamps to the time
index and are not modelled). -/
def MarketData := List (String × List Bar)

/-- Lookup of `self.market_data.get(pair, {}).get(primary_timeframe, None)`:
a missing pair behaves like an empty frame, which `get_close_price` values
at `0`. -/
def lookup_pair (md : MarketData) (pair : String) : List Bar :=
  ((md.find? (fun x => x.1 == pair)).map Prod.snd).getD []

/-- Embedding of `BacktestEngine._get_close_price(pair, timestamp)`. -/
def engine_close_price (md : MarketData) (pair : String) (t : ℤ) : ℚ :=
  get_close_price (lookup_pair md pair) t

/-- A position dict as built and mutated by the engine.  The Python dict's
optional keys are `Option` fields; `exit_take_profit1` / `exit_take_profit2`
stand for the key-presence tests `"exit_take_profit1" in position` of
`_check_exit_conditions` (no code under `src/` ever inserts those keys).
`trailing_stop_pct` is a plain field: `position.get("trailing_stop_pct", 0.003)`
only falls back to the default when the key is absent, and every position the
engine receives carries the key from its signal. -/
structure Position where
  id : ℕ
  pair : String
  direction : Direction
  entry_price : ℚ
  entry_time : ℤ
  position_size : ℚ
  stop_loss : ℚ
  take_profit1 : ℚ
  take_profit2 : ℚ
  trailing_stop_pct : ℚ
  exit_take_profit1 : Bool := false
  exit_take_profit2 : Bool := false
  trailing_stop : Option ℚ := none
  trailing_activated : Bool := false
  highest_price : Option ℚ := none
  lowest_price : Option ℚ := none
deriving DecidableEq, Repr

/-- Embedding of `BacktestEngine._update_trailing_stop`: initialise the
running extreme to the entry price when absent, and when the current price
strictly improves on it, move the extreme and set
`trailing_stop = price × (1 ∓ trailing_stop_pct)` with
`trailing_activated = True`. -/
def update_trailing_stop (p : Position) (price : ℚ) : Position :=
  match p.direction with
  | .LONG =>
    let hp := p.highest_price.getD p.entry_price
    if price > hp then
      { p with highest_price := some price,
               trailing_stop := some (price * (1 - p.trailing_stop_pct)),
               trailing_activated := true }
    else { p with highest_price := some hp }
  | .SHORT =>
    let lp := p.lowest_price.getD p.entry_price
    if price < lp then
      { p with lowest_price := some price,
               trailing_stop := some (price * (1 + p.trailing_stop_pct)),
               trailing_activated := true }
    else { p with lowest_price := some lp }

/-- Test of the trailing-stop branch of `_check_exit_conditions`:
`"trailing_stop" in position and position["trailing_activated"]`, and the
price has reached the trailing level in the position's direction. -/
def trailing_hit (p : Position) (price : ℚ) : Bool :=
  match p.trailing_stop with
  | some ts =>
      p.trailing_activated &&
        (decide ((p.direction = .LONG ∧ price ≤ ts) ∨
                 (p.direction = .SHORT ∧ price ≥ ts)))
  | none => false

/-- Embedding of `BacktestEngine._check_exit_conditions`.  The checks run in
the source's order: stop loss, take profit 1 (only if the tp1 key is absent),
take profit 2 (only if the tp1 key is present and the tp2 key absent),
trailing stop (only if the key is present and activated), then the trailing
stop is updated in place, then the time limit.  The Python function mutates
the position (the trailing update); the embedding returns the possibly
updated position alongside the optional exit reason.  `max_duration` is
`config["max_position_duration_hours"]` in hours. -/
def check_exit_conditions (max_duration : ℤ) (p : Position) (price : ℚ)
    (t : ℤ) : Option ExitReason × Position :=
  if (p.direction = .LONG ∧ price ≤ p.stop_loss) ∨
     (p.direction = .SHORT ∧ price ≥ p.stop_loss) then
    (some .STOP_LOSS, p)
  else if ¬p.exit_take_profit1 ∧
      ((p.direction = .LONG ∧ price ≥ p.take_profit1) ∨
       (p.direction = .SHORT ∧ price ≤ p.take_profit1)) then
    (some .TAKE_PROFIT1, p)
  else if p.exit_take_profit1 ∧ ¬p.exit_take_profit2 ∧
      ((p.direction = .LONG ∧ price ≥ p.take_profit2) ∨
       (p.direction = .SHORT ∧ price ≤ p.take_profit2)) then
    (some .TAKE_PROFIT2, p)
  else if trailing_hit p price then
    (some .TRAILING_STOP, p)
  else
    let p' := update_trailing_stop p price
    if t - p'.entry_time > max_duration then (some .TIME_LIMIT, p')
    else (none, p')

/-- Configuration of `RiskCalculator` (`src/risk/risk_calculator.py`), with
the source's defaults available to concrete instantiations. -/
structure RiskParams where
  max_risk_per_trade : ℚ := 1/100
  max_position_size_pct : ℚ := 2/100
  max_total_exposure : ℚ := 70/100
  max_consecutive_losses : ℕ := 3
  max_drawdown_pct : ℚ := 10/100
deriving DecidableEq, Repr

/-- Embedding of `RiskCalculator.calculate_position_size`: size `0` when the
entry price or the stop loss is `0` or the risked fraction is `0`; otherwise
the risk amount (defaulting to `capital × max_risk_per_trade` when the
optional `max_risk_amount` is `None`) divided by the risked fraction, capped
at `capital × max_position_size_pct`. -/
def calculate_position_size (rp : RiskParams) (capital entry_price stop_loss : ℚ)
    (max_risk_amount : Option ℚ) : ℚ :=
  if entry_price = 0 ∨ stop_loss = 0 then 0
  else
    let risk_pct := |entry_price - stop_loss| / entry_price
    if risk_pct = 0 then 0
    else
      let mra := max_risk_amount.getD (capital * rp.max_risk_per_trade)
      min (mra / risk_pct) (capital * rp.max_position_size_pct)

/-- Embedding of `RiskCalculator.is_drawdown_acceptable`.  The Python body
computes `max(equity_curve)` and divides by it; when the curve is non-empty
and that maximum is `0.0` the float division raises `ZeroDivisionError`,
modelled as `none`.  An empty curve returns `True` before any division. -/
def is_drawdown_acceptable (rp : RiskParams) (equity_curve : List ℚ)
    (current_equity : ℚ) : Option Bool :=
  match equity_curve with
  | [] => some true
  | e :: es =>
    let peak_equity := (e :: es).foldl max e
    if peak_equity = 0 then none
    else some (decide ((peak_equity - current_equity) / peak_equity ≤ rp.max_drawdown_pct))

/-- Read-only view of an open position as `RiskCalculator.can_open_position`
uses it: only the `"position_value"` entry is read. -/
structure RiskPosition where
  position_value : ℚ
deriving DecidableEq, Repr

/-- Embedding of `RiskCalculator.can_open_position`: reject on
`consecutive_losses >= max_consecutive_losses`, then on an unacceptable
drawdown, then on total exposure `≥ current_equity × max_total_exposure`;
otherwise accept.  The `none` of `is_drawdown_acceptable` (Python
`ZeroDivisionError`) propagates. -/
def can_open_position (rp : RiskParams) (current_positions : List RiskPosition)
    (consecutive_losses : ℕ) (equity_curve : List ℚ)
    (current_equity : ℚ) : Option Bool :=
  if consecutive_losses ≥ rp.max_consecutive_losses then some false
  else
    match is_drawdown_acceptable rp equity_curve current_equity with
    | none => none
    | some ok =>
      if !ok then some false
      else
        let total_exposure := (current_positions.map RiskPosition.position_value).sum
        if total_exposure ≥ current_equity * rp.max_total_exposure then some false
        else some true

/-- Unrealized P&L of one open position at a price, the formula of
`BacktestEngine._calculate_equity`:
`(price − entry)/entry × size × entry` for LONG and
`(entry − price)/entry × size × entry` for SHORT.  With `entry = 0` Python
would raise `ZeroDivisionError`; `ℚ` division by zero yields `0`, and no
claim depends on that case. -/
def unrealized_pnl (p : Position) (price : ℚ) : ℚ :=
  match p.direction with
  | .LONG => (price - p.entry_price) / p.entry_price * p.position_size * p.entry_price
  | .SHORT => (p.entry_price - price) / p.entry_price * p.position_size * p.entry_price

/-- Embedding of `BacktestEngine._calculate_equity`: the fixed
`initial_capital` baseline plus the sum of the unrealized P&L of the open
positions, each valued at `_get_close_price(pair, current_time)`.  The
`current_equity` argument of the source is ignored by its body and is
omitted here. -/
def calculate_equity (initial_capital : ℚ) (md : MarketData)
    (positions : List Position) (t : ℤ) : ℚ :=
  initial_capital +
    (positions.map (fun p => unrealized_pnl p (engine_close_price md p.pair t))).sum

/-- A closed trade as appended to the ledger: the position's entry data plus
exit price, exit time, exit reason and realized profit/loss. -/
structure ClosedTrade where
  id : ℕ
  pair : String
  direction : Direction
  entry_price : ℚ
  entry_time : ℤ
  position_size : ℚ
  exit_price : ℚ
  exit_time : ℤ
  exit_reason : ExitReason
  profit_loss : ℚ
deriving DecidableEq, Repr

/-- Modelled from the spec: `OrderSimulator.close_position`
(`src/backtesting/simulator.py` is absent from the sources).  Per §4.4,
realized P&L is `(exitPrice − entryPrice)/entryPrice × size × entryPrice`
for LONG with the negated sign convention for SHORT — the same formula the
engine's `_calculate_equity` uses for unrealized P&L — and the closed trade
records `{exit_price, exit_time, exit_reason, profit_loss}`. -/
def close_position (p : Position) (t : ℤ) (price : ℚ)
    (reason : ExitReason) : ClosedTrade :=
  { id := p.id
    pair := p.pair
    direction := p.direction
    entry_price := p.entry_price
    entry_time := p.entry_time
    position_size := p.position_size
    exit_price := price
    exit_time := t
    exit_reason := reason
    profit_loss := unrealized_pnl p price }

/-- A strategy signal, the record of §6 of the spec
(`generateSignals` of the excluded strategy). -/
structure Signal where
  pair : String
  direction : Direction
  entry_price : ℚ
  stop_loss : ℚ
  take_profit1 : ℚ
  take_profit2 : ℚ
  trailing_stop_pct : ℚ
deriving DecidableEq, Repr

/-- Modelled from the spec: `OrderSimulator.open_position`
(`src/backtesting/simulator.py` is absent from the sources).  Per §4.4,
opening records the entry snapshot from the signal, assigns a fresh id, and
sizes the position with the risk-based `sizePosition` of the Risk Gate,
which is `RiskCalculator.calculate_position_size` (in the sources); the
optional state of the position (trailing stop, extremes, tp flags) starts
absent. -/
def open_position (rp : RiskParams) (fresh_id : ℕ) (sig : Signal) (t : ℤ)
    (equity : ℚ) : Position :=
  { id := fresh_id
    pair := sig.pair
    direction := sig.direction
    entry_price := sig.entry_price
    entry_time := t
    position_size := calculate_position_size rp equity sig.entry_price sig.stop_loss none
    stop_loss := sig.stop_loss
    take_profit1 := sig.take_profit1
    take_profit2 := sig.take_profit2
    trailing_stop_pct := sig.trailing_stop_pct }

/-- Embedding of `BacktestEngine._create_time_index`: the union of the bar
timestamps of every pair (Python `set`, here `dedup`), sorted, and filtered
to `start_date ≤ t ≤ end_date` (both ends inclusive). -/
def create_time_index (all_timestamps : List ℤ) (start_date end_date : ℤ) : List ℤ :=
  (List.insertionSort (· ≤ ·) all_timestamps.dedup).filter
    (fun t => decide (start_date ≤ t) && decide (t ≤ end_date))

/-- All bar timestamps occurring in the market data, the
`all_timestamps` set of `_create_time_index`. -/
def all_bar_timestamps (md : MarketData) : List ℤ :=
  md.foldr (fun x acc => x.2.map Bar.timestamp ++ acc) []

/-- Embedding of `BacktestEngine._update_positions`: for each open position
in insertion order, value it at `_get_close_price`, run
`_check_exit_conditions` (whose trailing-stop mutation persists), and either
keep the updated position or move it to the trade ledger with
`close_position`.  Returns the remaining positions and the newly closed
trades, both in iteration order. -/
def update_positions (max_duration : ℤ) (md : MarketData)
    (t : ℤ) : List Position → List Position × List ClosedTrade
  | [] => ([], [])
  | p :: rest =>
    let price := engine_close_price md p.pair t
    let r := check_exit_conditions max_duration p price t
    let next := update_positions max_duration md t rest
    match r.1 with
    | some reason => (next.1, close_position r.2 t price reason :: next.2)
    | none => (r.2 :: next.1, next.2)

/-- Engine configuration: the slice of `config` the embedded run reads. -/
structure EngineConfig where
  start_date : ℤ
  end_date : ℤ
  initial_capital : ℚ := 10000
  max_position_duration_hours : ℤ := 48
deriving DecidableEq, Repr

/-- Loop state of `BacktestEngine.run`: the `equity` variable, the equity
curve and trade ledger being built, the open-position table, and the fresh-id
counter of the (spec-modelled) simulator. -/
structure LoopState where
  equity : ℚ
  equity_curve : List (ℤ × ℚ)
  trades : List ClosedTrade
  positions : List Position
  next_id : ℕ
deriving DecidableEq, Repr

/-- One iteration of the loop of `BacktestEngine.run` at tick `t`: update the
open positions (exit checks), admit and open the tick's signals (the
strategy's `generate_signals` and the simulator's `can_open_position` are
external to the sources and passed in as `signals` and `can_open`; note the
admission sees the positions opened earlier in the same tick and the
pre-tick `equity` variable, as in the source), then recompute the equity and
append it to the curve. -/
def run_tick (cfg : EngineConfig) (rp : RiskParams) (md : MarketData)
    (signals : ℤ → List Signal)
    (can_open : Signal → List Position → ℚ → Bool)
    (st : LoopState) (t : ℤ) : LoopState :=
  let upd := update_positions cfg.max_position_duration_hours md t st.positions
  let opened := (signals t).foldl
    (fun (acc : List Position × ℕ) sig =>
      if can_open sig acc.1 st.equity then
        (acc.1 ++ [open_position rp acc.2 sig t st.equity], acc.2 + 1)
      else acc)
    (upd.1, st.next_id)
  let equity' := calculate_equity cfg.initial_capital md opened.1 t
  { equity := equity'
    equity_curve := st.equity_curve ++ [(t, equity')]
    trades := st.trades ++ upd.2
    positions := opened.1
    next_id := opened.2 }

/-- Result of a run: the trade ledger and the equity curve (metrics are
computed from these by `calculate_metrics`, as in the source's line
`metrics = self._calculate_metrics(trades, equity_curve, self.initial_capital)`). -/
structure RunResult where
  trades : List ClosedTrade
  equity_curve : List (ℤ × ℚ)
deriving DecidableEq, Repr

/-- Embedding of `BacktestEngine.run`: build the time index, start the curve
at `(start_date, initial_capital)`, fold the per-tick loop over the index,
then force-close every remaining position at `end_date` with reason
`END_OF_BACKTEST`, valued at `_get_close_price(pair, end_date)`. -/
def run (cfg : EngineConfig) (rp : RiskParams) (md : MarketData)
    (signals : ℤ → List Signal)
    (can_open : Signal → List Position → ℚ → Bool) : RunResult :=
  let time_index := create_time_index (all_bar_timestamps md) cfg.start_date cfg.end_date
  let init : LoopState :=
    { equity := cfg.initial_capital
      equity_curve := [(cfg.start_date, cfg.initial_capital)]
      trades := []
      positions := []
      next_id := 0 }
  let final := time_index.foldl (run_tick cfg rp md signals can_open) init
  let end_trades := final.positions.map
    (fun p => close_position p cfg.end_date
      (engine_close_price md p.pair cfg.end_date) .END_OF_BACKTEST)
  { trades := final.trades ++ end_trades
    equity_curve := final.equity_curve }

/-- A nonnegative Python float that may be `float('inf')`, the type of the
`profit_factor` entry of the metrics dict. -/
inductive PFloat where
  | inf : PFloat
  | val : ℚ → PFloat
deriving DecidableEq, Repr

/-- The metrics dict of `BacktestEngine._calculate_metrics`, minus the two
entries that need real-valued functions (`cagr`, `sharpe_ratio`), which are
split into the separate definitions `cagr_metric` and `sharpe_ratio` so that
the rational part of the record stays executable. -/
structure Metrics where
  initial_capital : ℚ
  final_capital : ℚ
  total_return : ℚ
  roi : ℚ
  total_trades : ℕ
  winning_trades : ℕ
  losing_trades : ℕ
  win_rate : ℚ
  avg_profit : ℚ
  avg_loss : ℚ
  profit_factor : PFloat
  max_drawdown : ℚ
deriving DecidableEq, Repr

/-- The max-drawdown loop of `_calculate_metrics`: running peak starting at
`initial_capital`; for each equity value either raise the peak or record
`(peak − equity)/peak` and keep the largest.  (With a peak of `0` Python
would raise `ZeroDivisionError`; that needs `initial_capital ≤ 0`, outside
every claim, and `ℚ` division by zero yields `0`.) -/
def max_drawdown_calc (initial_capital : ℚ) (equity_values : List ℚ) : ℚ :=
  (equity_values.foldl
    (fun (acc : ℚ × ℚ) e =>
      if e > acc.2 then (acc.1, e)
      else (max acc.1 ((acc.2 - e) / acc.2), acc.2))
    (0, initial_capital)).1

/-- Embedding of the rational part of `BacktestEngine._calculate_metrics`. -/
def calculate_metrics (trades : List ClosedTrade) (equity_curve : List (ℤ × ℚ))
    (initial_capital : ℚ) : Metrics :=
  let equity_values := equity_curve.map Prod.snd
  let final_equity := equity_values.getLast?.getD initial_capital
  let total_return := final_equity - initial_capital
  let roi := total_return / initial_capital
  let total_trades := trades.length
  let winning_trades := (trades.filter (fun tr => tr.profit_loss > 0)).length
  let losing_trades := total_trades - winning_trades
  let win_rate : ℚ := if total_trades > 0 then (winning_trades : ℚ) / (total_trades : ℚ) else 0
  let avg_profit : ℚ :=
    if winning_trades > 0 then
      ((trades.filter (fun tr => tr.profit_loss > 0)).map ClosedTrade.profit_loss).sum
        / (winning_trades : ℚ)
    else 0
  let avg_loss : ℚ :=
    if losing_trades > 0 then
      ((trades.filter (fun tr => tr.profit_loss ≤ 0)).map (fun tr => |tr.profit_loss|)).sum
        / (losing_trades : ℚ)
    else 0
  let profit_factor := if avg_loss > 0 then PFloat.val (avg_profit / avg_loss) else PFloat.inf
  { initial_capital := initial_capital
    final_capital := final_equity
    total_return := total_return
    roi := roi
    total_trades := total_trades
    winning_trades := winning_trades
    losing_trades := losing_trades
    win_rate := win_rate
    avg_profit := avg_profit
    avg_loss := avg_loss
    profit_factor := profit_factor
    max_drawdown := max_drawdown_calc initial_capital equity_values }

/-- The per-tick simple returns of the sharpe computation of
`_calculate_metrics`: `(v[i] − v[i−1]) / v[i−1]` for `i ≥ 1`, skipping steps
whose previous equity is not positive. -/
def tick_returns (equity_values : List ℚ) : List ℚ :=
  (equity_values.zip equity_values.tail).filterMap
    (fun pr => if pr.1 > 0 then some ((pr.2 - pr.1) / pr.1) else none)

/-- Mean of the tick returns (`avg_return` of the source, `0` on an empty
list). -/
def mean_return (rs : List ℚ) : ℚ :=
  if rs = [] then 0 else rs.sum / (rs.length : ℚ)

/-- Population variance of the tick returns, the square of the source's
`std_return` (`0` on an empty list). -/
def variance_return (rs : List ℚ) : ℚ :=
  if rs = [] then 0
  else ((rs.map (fun r => (r - mean_return rs) ^ 2)).sum) / (rs.length : ℚ)

/-- The `sharpe_ratio` entry of the metrics dict:
`avg_return / std_return × √252` when the curve has more than one point and
`std_return > 0`, else `0`.  The source's guard `std_return > 0` is stated
as `variance_return > 0`, equivalent since `std_return = √variance` and the
variance is nonnegative. -/
noncomputable def sharpe_ratio (equity_values : List ℚ) : ℝ :=
  if equity_values.length > 1 then
    let rs := tick_returns equity_values
    if 0 < variance_return rs then
      ((mean_return rs : ℝ) / Real.sqrt (variance_return rs : ℝ)) * Real.sqrt 252
    else 0
  else 0

/-- The `cagr` entry of the metrics dict:
`(final/initial) ^ (365/days) − 1` when the curve spans a positive number of
whole days, else `0`.  With hour-denominated timestamps, the whole-day span
`(dates[-1] − dates[0]).days` is the floor division of the hour span by 24. -/
noncomputable def cagr_metric (equity_curve : List (ℤ × ℚ))
    (initial_capital : ℚ) : ℝ :=
  let dates := equity_curve.map Prod.fst
  let equity_values := equity_curve.map Prod.snd
  let final_equity := equity_values.getLast?.getD initial_capital
  let days : ℤ := ((dates.getLast?.getD 0) - (dates.head?.getD 0)) / 24
  if 0 < days then
    ((final_equity / initial_capital : ℚ) : ℝ) ^ ((365 : ℝ) / (max days 1 : ℤ)) - 1
  else 0

/-- Market data for the concrete scenario runs: one pair, five hourly bars
on the primary timeframe. -/
def scenarioData : MarketData :=
  [("BTC/USDT", [⟨1, 100⟩, ⟨2, 205/2⟩, ⟨3, 100⟩, ⟨4, 99⟩, ⟨5, 100⟩])]

/-- Engine configuration for the concrete scenario runs (initial capital
10000, the source's default). -/
def scenarioCfg : EngineConfig := { start_date := 0, end_date := 10 }

/-- Scenario signal opening a LONG at 100 whose take-profit 1 of 102.5 is
hit at the bar of timestamp 2, realizing `+500` with the risk-capped size
of 200. -/
def scenarioSig1 : Signal :=
  { pair := "BTC/USDT", direction := .LONG, entry_price := 100, stop_loss := 95
    take_profit1 := 205/2, take_profit2 := 110, trailing_stop_pct := 3/1000 }

/-- Scenario signal opening a LONG at 100 whose stop loss of 99 is hit at
the bar of timestamp 4, realizing `-200` with the risk-capped size of 200. -/
def scenarioSig2 : Signal :=
  { pair := "BTC/USDT", direction := .LONG, entry_price := 100, stop_loss := 99
    take_profit1 := 110, take_profit2 := 120, trailing_stop_pct := 3/1000 }

/-- Scenario strategy: one signal at tick 1 and one at tick 3. -/
def scenarioSignals : ℤ → List Signal := fun t =>
  if t = 1 then [scenarioSig1] else if t = 3 then [scenarioSig2] else []

/-- The concrete scenario run: a winning trade of `+500` and a losing trade
of `-200`, both closed before the end of the backtest. -/
def scenarioRun : RunResult :=
  run scenarioCfg {} scenarioData scenarioSignals (fun _ _ _ => true)

/-- Metrics of the concrete scenario run, computed as in `BacktestEngine.run`
from its ledger and equity curve with initial capital 10000. -/
def scenarioMetrics : Metrics :=
  calculate_metrics scenarioRun.trades scenarioRun.equity_curve 10000

/-- Market data whose first bar falls exactly on the backtest's start date:
the time index then begins at `start_date` itself. -/
def startBarData : MarketData := [("BTC/USDT", [⟨0, 1⟩, ⟨5, 1⟩])]

/-- Run over `startBarData` with no signals: its equity curve repeats the
timestamp `start_date = 0`. -/
def startBarRun : RunResult :=
  run scenarioCfg {} startBarData (fun _ => []) (fun _ _ _ => true)

/-- A LONG position with running high 110 and trailing level
`110 × (1 − 0.01) = 108.9`, used to instantiate the ratchet property. -/
def ratchetPos : Position :=
  { id := 0, pair := "BTC/USDT", direction := .LONG, entry_price := 100,
    entry_time := 0, position_size := 1, stop_loss := 95,
    take_profit1 := 205/2, take_profit2 := 110, trailing_stop_pct := 1/100,
    trailing_stop := some (1089/10), trailing_activated := true,
    highest_price := some 110 }

/-- Consistency of a position's trailing-stop state as the engine maintains
it: whenever the `"trailing_stop"` key is present, the running extreme key is
present as well and the level equals `extreme × (1 ∓ trailing_stop_pct)` —
`_update_trailing_stop` writes both together and nothing else writes them.
Freshly opened positions satisfy this vacuously (no trailing key). -/
def TrailConsistent (p : Position) : Prop :=
  ∀ v, p.trailing_stop = some v →
    (p.direction = .LONG →
      ∃ hp, p.highest_price = some hp ∧ v = hp * (1 - p.trailing_stop_pct)) ∧
    (p.direction = .SHORT →
      ∃ lp, p.lowest_price = some lp ∧ v = lp * (1 + p.trailing_stop_pct))

/-! ### Lemmas about the nearest-bar search of `_get_close_price` -/

theorem nearestBar_eq_none (t : ℤ) :
    ∀ df : List Bar, nearestBar t df = none ↔ df = [] := by
  intro df
  cases df with
  | nil => simp [nearestBar]
  | cons b rest =>
    simp only [nearestBar]
    cases h : nearestBar t rest with
    | none => simp
    | some c =>
      simp only [List.cons_ne_nil, iff_false]
      split <;> simp

theorem nearestBar_mem (t : ℤ) :
    ∀ (df : List Bar) (b : Bar), nearestBar t df = some b → b ∈ df := by
  intro df
  induction df with
  | nil => intro b h; simp [nearestBar] at h
  | cons a rest ih =>
    intro b h
    simp only [nearestBar] at h
    cases hr : nearestBar t rest with
    | none => rw [hr] at h; cases h; exact List.mem_cons_self _ _
    | some c =>
      rw [hr] at h; dsimp only at h
      by_cases hle : |c.timestamp - t| ≤ |a.timestamp - t|
      · rw [if_pos hle] at h; cases h
        exact List.mem_cons_of_mem _ (ih _ hr)
      · rw [if_neg hle] at h; cases h
        exact List.mem_cons_self _ _

theorem nearestBar_min (t : ℤ) :
    ∀ (df : List Bar) (b : Bar), nearestBar t df = some b →
      ∀ b' ∈ df, |b.timestamp - t| ≤ |b'.timestamp - t| := by
  intro df
  induction df with
  | nil => intro b h; simp [nearestBar] at h
  | cons a rest ih =>
    intro b h b' hb'
    simp only [nearestBar] at h
    cases hr : nearestBar t rest with
    | none =>
      rw [hr] at h; cases h
      rcases List.mem_cons.mp hb' with h' | h'
      · rw [h']
      · exact absurd ((nearestBar_eq_none t rest).mp hr ▸ h') (List.not_mem_nil _)
    | some c =>
      rw [hr] at h; dsimp only at h
      by_cases hle : |c.timestamp - t| ≤ |a.timestamp - t|
      · rw [if_pos hle] at h; cases h
        rcases List.mem_cons.mp hb' with h' | h'
        · rw [h']; exact hle
        · exact ih _ hr _ h'
      · rw [if_neg hle] at h; cases h
        rcases List.mem_cons.mp hb' with h' | h'
        · rw [h']
        · exact le_trans (le_of_lt (lt_of_not_le hle)) (ih _ hr _ h')

/-- C1 (counterexample): with bars at timestamps 0 and 10 and a query at 9,
`_get_close_price` returns the close of the bar at timestamp 10 — a bar
strictly in the future of the query — so the returned price is the close of
no bar with timestamp at most the query time. -/
theorem get_close_price_uses_future_bar :
    get_close_price [⟨0, 5⟩, ⟨10, 7⟩] 9 = 7 ∧
    ((([⟨0, 5⟩, ⟨10, 7⟩] : List Bar).filter
        (fun b => decide (b.timestamp ≤ 9))).map Bar.close) = [5] := by
  decide

/-- C1 (amended): `_get_close_price` returns 0 when no data exists for the
pair, and otherwise the close of a bar whose timestamp is nearest to the
query among all loaded bars — including bars later than the query, so a
future bar can be used. -/
theorem get_close_price_nearest (df : List Bar) (t : ℤ) :
    (df = [] → get_close_price df t = 0) ∧
    (df ≠ [] → ∃ b ∈ df, get_close_price df t = b.close ∧
      ∀ b' ∈ df, |b.timestamp - t| ≤ |b'.timestamp - t|) := by
  constructor
  · intro h; subst h; rfl
  · intro h
    cases hn : nearestBar t df with
    | none => exact absurd ((nearestBar_eq_none t df).mp hn) h
    | some b =>
      refine ⟨b, nearestBar_mem t df b hn, ?_, nearestBar_min t df b hn⟩
      simp [get_close_price, hn]

/-- Witness for `get_close_price_nearest` at a concrete bar list. -/
theorem get_close_price_nearest_witness :
    ([⟨0, 5⟩, ⟨10, 7⟩] : List Bar) ≠ [] ∧
    ∃ b ∈ ([⟨0, 5⟩, ⟨10, 7⟩] : List Bar),
      get_close_price [⟨0, 5⟩, ⟨10, 7⟩] 9 = b.close ∧
      ∀ b' ∈ ([⟨0, 5⟩, ⟨10, 7⟩] : List Bar),
        |b.timestamp - 9| ≤ |b'.timestamp - 9| :=
  ⟨by decide, (get_close_price_nearest [⟨0, 5⟩, ⟨10, 7⟩] 9).2 (by decide)⟩

/-! ### Exit-condition priority -/

/-- C4: whenever the stop-loss condition holds (LONG: price ≤ stop_loss;
SHORT: price ≥ stop_loss), `_check_exit_conditions` returns `STOP_LOSS`,
regardless of any other condition — in particular even when the
take-profit-1 condition holds at the same tick. -/
theorem stop_loss_priority (max_duration : ℤ) (p : Position) (price : ℚ) (t : ℤ)
    (h : (p.direction = .LONG ∧ price ≤ p.stop_loss) ∨
         (p.direction = .SHORT ∧ price ≥ p.stop_loss)) :
    (check_exit_conditions max_duration p price t).1 = some .STOP_LOSS := by
  unfold check_exit_conditions
  rw [if_pos h]

/-- Witness for `stop_loss_priority`: a LONG position with stop loss 100 and
take profit 1 at 90, at price 95, satisfies both the stop-loss and the
take-profit-1 conditions, and the result is `STOP_LOSS`. -/
theorem stop_loss_priority_witness :
    (({ id := 0, pair := "BTC/USDT", direction := .LONG, entry_price := 100,
        entry_time := 0, position_size := 1, stop_loss := 100,
        take_profit1 := 90, take_profit2 := 120,
        trailing_stop_pct := 3/1000 } : Position).direction = .LONG ∧
      (95 : ℚ) ≤ 100 ∧ (95 : ℚ) ≥ 90) ∧
    (check_exit_conditions 48
      { id := 0, pair := "BTC/USDT", direction := .LONG, entry_price := 100,
        entry_time := 0, position_size := 1, stop_loss := 100,
        take_profit1 := 90, take_profit2 := 120,
        trailing_stop_pct := 3/1000 } 95 0).1 = some .STOP_LOSS :=
  ⟨by norm_num, stop_loss_priority 48 _ 95 0 (Or.inl ⟨rfl, by norm_num⟩)⟩

/-! ### Risk gate -/

/-- C6: the risk gate rejects (returns `False`, never raising) whenever
`consecutive_losses ≥ max_consecutive_losses`, whatever the open positions,
the equity curve and the current equity. -/
theorem consecutive_losses_gate (rp : RiskParams) (ps : List RiskPosition)
    (losses : ℕ) (curve : List ℚ) (current_equity : ℚ)
    (h : losses ≥ rp.max_consecutive_losses) :
    can_open_position rp ps losses curve current_equity = some false := by
  unfold can_open_position
  rw [if_pos h]

/-- Witness for `consecutive_losses_gate`: default parameters
(`max_consecutive_losses = 3`), three consecutive losses, no open exposure,
a healthy curve and equity — still rejected. -/
theorem consecutive_losses_gate_witness :
    3 ≥ ({} : RiskParams).max_consecutive_losses ∧
    can_open_position {} [] 3 [10000] 10000 = some false :=
  ⟨by decide, consecutive_losses_gate {} [] 3 [10000] 10000 (by decide)⟩

/-- C7: with the default `max_risk_amount = None`, `calculate_position_size`
returns `min (capital × max_risk_per_trade / (|entry − stop| / entry))
(capital × max_position_size_pct)` in the non-degenerate case, and `0`
(without raising) when the entry price, the stop loss, or the risked
fraction is `0`. -/
theorem position_size_spec (rp : RiskParams) (capital entry_price stop_loss : ℚ) :
    (entry_price ≠ 0 → stop_loss ≠ 0 → |entry_price - stop_loss| / entry_price ≠ 0 →
      calculate_position_size rp capital entry_price stop_loss none =
        min ((capital * rp.max_risk_per_trade) / (|entry_price - stop_loss| / entry_price))
            (capital * rp.max_position_size_pct)) ∧
    ((entry_price = 0 ∨ stop_loss = 0 ∨ |entry_price - stop_loss| / entry_price = 0) →
      calculate_position_size rp capital entry_price stop_loss none = 0) := by
  constructor
  · intro he hs hr
    unfold calculate_position_size
    rw [if_neg (by tauto), if_neg hr]
    rfl
  · intro h
    unfold calculate_position_size
    rcases h with h | h | h
    · rw [if_pos (Or.inl h)]
    · rw [if_pos (Or.inr h)]
    · by_cases hd : entry_price = 0 ∨ stop_loss = 0
      · rw [if_pos hd]
      · rw [if_neg hd, if_pos h]

/-- Witness for `position_size_spec`: capital 10000, entry 100, stop 95 with
the default parameters sizes to
`min (10000 × 0.01 / 0.05) (10000 × 0.02) = 200`; entry 0 sizes to 0. -/
theorem position_size_spec_witness :
    ((100 : ℚ) ≠ 0 ∧ (95 : ℚ) ≠ 0 ∧ |(100 : ℚ) - 95| / 100 ≠ 0 ∧
      calculate_position_size {} 10000 100 95 none =
        min ((10000 * ({} : RiskParams).max_risk_per_trade) / (|(100 : ℚ) - 95| / 100))
            (10000 * ({} : RiskParams).max_position_size_pct)) ∧
    calculate_position_size {} 10000 0 95 none = 0 :=
  ⟨⟨by norm_num, by norm_num, by norm_num,
      (position_size_spec {} 10000 100 95).1 (by norm_num) (by norm_num) (by norm_num)⟩,
    (position_size_spec {} 10000 0 95).2 (Or.inl rfl)⟩

/-- C10: `is_drawdown_acceptable` accepts on an empty curve without any
division; on a non-empty curve it is total exactly when the curve's maximum
is nonzero (Python divides by `max(equity_curve)`, raising
`ZeroDivisionError` — modelled `none` — when that maximum is `0`); and
`can_open_position` therefore never raises when the curve is empty or its
maximum nonzero. -/
theorem drawdown_totality (rp : RiskParams) (ps : List RiskPosition)
    (losses : ℕ) (curve : List ℚ) (current_equity : ℚ) :
    (curve = [] → is_drawdown_acceptable rp curve current_equity = some true) ∧
    (∀ e es, curve = e :: es → (e :: es).foldl max e ≠ 0 →
      (is_drawdown_acceptable rp curve current_equity).isSome) ∧
    (∀ e es, curve = e :: es → (e :: es).foldl max e = 0 →
      is_drawdown_acceptable rp curve current_equity = none) ∧
    ((curve = [] ∨ ∃ e es, curve = e :: es ∧ (e :: es).foldl max e ≠ 0) →
      (can_open_position rp ps losses curve current_equity).isSome) := by
  refine ⟨?_, ?_, ?_, ?_⟩
  · intro h; subst h; rfl
  · intro e es h hmax; subst h
    simp only [is_drawdown_acceptable]
    rw [if_neg hmax]
    rfl
  · intro e es h hmax; subst h
    simp only [is_drawdown_acceptable]
    rw [if_pos hmax]
  · intro h
    unfold can_open_position
    by_cases hl : losses ≥ rp.max_consecutive_losses
    · rw [if_pos hl]; rfl
    · rw [if_neg hl]
      have hs : ∃ ok, is_drawdown_acceptable rp curve current_equity = some ok := by
        rcases h with h | ⟨e, es, h, hmax⟩
        · subst h; exact ⟨true, rfl⟩
        · subst h
          simp only [is_drawdown_acceptable]
          rw [if_neg hmax]
          exact ⟨_, rfl⟩
      rcases hs with ⟨ok, hok⟩
      rw [hok]
      cases ok with
      | false => rfl
      | true => dsimp only; split <;> [rfl; (split <;> rfl)]

/-- Witness for `drawdown_totality`: a one-point curve with maximum 10000
keeps both the drawdown check and the full gate total. -/
theorem drawdown_totality_witness :
    ([(10000 : ℚ)] = [(10000 : ℚ)] ∧ ([(10000 : ℚ)]).foldl max 10000 ≠ 0) ∧
    (is_drawdown_acceptable {} [(10000 : ℚ)] 9000).isSome ∧
    (can_open_position {} [] 0 [(10000 : ℚ)] 9000).isSome :=
  ⟨⟨rfl, by norm_num⟩,
    (drawdown_totality {} [] 0 [(10000 : ℚ)] 9000).2.1 10000 [] rfl (by norm_num),
    (drawdown_totality {} [] 0 [(10000 : ℚ)] 9000).2.2.2
      (Or.inr ⟨10000, [], rfl, by norm_num⟩)⟩

/-! ### Metrics on an empty ledger and the profit factor -/

theorem tick_returns_const (vals : List ℚ) (c : ℚ) (h : ∀ x ∈ vals, x = c) :
    ∀ r ∈ tick_returns vals, r = 0 := by
  intro r hr
  rcases List.mem_filterMap.mp hr with ⟨pr, hpr, hf⟩
  have h1 : pr.1 = c := h _ (List.of_mem_zip hpr).1
  have h2 : pr.2 = c := h _ (List.mem_of_mem_tail (List.of_mem_zip hpr).2)
  by_cases hp : pr.1 > 0
  · rw [if_pos hp] at hf
    have : (pr.2 - pr.1) / pr.1 = r := by injection hf
    rw [← this, h1, h2, sub_self, zero_div]
  · rw [if_neg hp] at hf
    exact absurd hf (by simp)

theorem mean_return_zero (rs : List ℚ) (h : ∀ r ∈ rs, r = 0) :
    mean_return rs = 0 := by
  unfold mean_return
  split
  · rfl
  · rw [List.sum_eq_zero h, zero_div]

theorem variance_return_zero (rs : List ℚ) (h : ∀ r ∈ rs, r = 0) :
    variance_return rs = 0 := by
  unfold variance_return
  split
  · rfl
  · rw [List.sum_eq_zero, zero_div]
    intro x hx
    rcases List.mem_map.mp hx with ⟨r, hr, hrx⟩
    rw [← hrx, h r hr, mean_return_zero rs h, sub_zero]
    norm_num

theorem sharpe_ratio_const (vals : List ℚ) (c : ℚ) (h : ∀ x ∈ vals, x = c) :
    sharpe_ratio vals = 0 := by
  unfold sharpe_ratio
  split
  · have hv : variance_return (tick_returns vals) = 0 :=
      variance_return_zero _ (tick_returns_const vals c h)
    rw [if_neg (by rw [hv]; exact lt_irrefl 0)]
  · rfl

/-- The `profit_factor` entry as a function of the `avg_profit` and
`avg_loss` entries: the source's
`avg_profit / avg_loss if avg_loss > 0 else float('inf')`. -/
theorem profit_factor_eq (trades : List ClosedTrade) (curve : List (ℤ × ℚ))
    (initial : ℚ) :
    (calculate_metrics trades curve initial).profit_factor =
      (if (calculate_metrics trades curve initial).avg_loss > 0 then
        PFloat.val ((calculate_metrics trades curve initial).avg_profit /
          (calculate_metrics trades curve initial).avg_loss)
      else PFloat.inf) := rfl

/-- C3 (counterexample): on an empty trade ledger `avg_loss = 0`, so
`_calculate_metrics` returns `profit_factor = float('inf')`, not 0 as
claimed. -/
theorem profit_factor_empty_ledger_not_zero :
    (calculate_metrics [] [((0 : ℤ), (10000 : ℚ))] 10000).profit_factor = PFloat.inf ∧
    PFloat.inf ≠ PFloat.val 0 := by
  exact ⟨rfl, by decide⟩

/-- C3 (amended): on an empty ledger `_calculate_metrics` returns
`win_rate = 0` and `profit_factor = +∞` (not 0) without raising; the sharpe
ratio is 0 for any constant equity curve — in particular for the curve a
tradeless run produces; and in general
`profit_factor = avg_profit / avg_loss` when `avg_loss > 0` and `+∞`
whenever `avg_loss = 0`, winners or not. -/
theorem metrics_empty_ledger (trades : List ClosedTrade) (curve : List (ℤ × ℚ))
    (initial c : ℚ) (vals : List ℚ) :
    ((calculate_metrics [] curve initial).win_rate = 0 ∧
     (calculate_metrics [] curve initial).profit_factor = PFloat.inf) ∧
    ((∀ x ∈ vals, x = c) → sharpe_ratio vals = 0) ∧
    ((calculate_metrics trades curve initial).avg_loss > 0 →
      (calculate_metrics trades curve initial).profit_factor =
        PFloat.val ((calculate_metrics trades curve initial).avg_profit /
          (calculate_metrics trades curve initial).avg_loss)) ∧
    (¬ (calculate_metrics trades curve initial).avg_loss > 0 →
      (calculate_metrics trades curve initial).profit_factor = PFloat.inf) := by
  refine ⟨⟨rfl, rfl⟩, fun h => sharpe_ratio_const vals c h, ?_, ?_⟩
  · intro h
    rw [profit_factor_eq, if_pos h]
  · intro h
    rw [profit_factor_eq, if_neg h]

/-- Witness for `metrics_empty_ledger`: a constant two-point equity curve has
sharpe 0, and a one-loss ledger (`avg_loss = 200 > 0`) has
`profit_factor = avg_profit / avg_loss`. -/
theorem metrics_empty_ledger_witness :
    ((∀ x ∈ [(10000 : ℚ), 10000], x = 10000) ∧
      sharpe_ratio [(10000 : ℚ), 10000] = 0) ∧
    ((calculate_metrics
        [⟨0, "BTC/USDT", .LONG, 100, 1, 200, 99, 2, .STOP_LOSS, -200⟩]
        [((0 : ℤ), (10000 : ℚ))] 10000).avg_loss > 0 ∧
      (calculate_metrics
        [⟨0, "BTC/USDT", .LONG, 100, 1, 200, 99, 2, .STOP_LOSS, -200⟩]
        [((0 : ℤ), (10000 : ℚ))] 10000).profit_factor =
        PFloat.val ((calculate_metrics
          [⟨0, "BTC/USDT", .LONG, 100, 1, 200, 99, 2, .STOP_LOSS, -200⟩]
          [((0 : ℤ), (10000 : ℚ))] 10000).avg_profit /
          (calculate_metrics
          [⟨0, "BTC/USDT", .LONG, 100, 1, 200, 99, 2, .STOP_LOSS, -200⟩]
          [((0 : ℤ), (10000 : ℚ))] 10000).avg_loss)) :=
  ⟨⟨by decide,
      (metrics_empty_ledger [] [] 10000 10000 [(10000 : ℚ), 10000]).2.1 (by decide)⟩,
    by decide!,
    (metrics_empty_ledger
      [⟨0, "BTC/USDT", .LONG, 100, 1, 200, 99, 2, .STOP_LOSS, -200⟩]
      [((0 : ℤ), (10000 : ℚ))] 10000 0 []).2.2.1 (by decide!)⟩

/-! ### Equity denomination and the +500/−200 scenario -/

/-- The equity the loop records at a tick is exactly
`_calculate_equity` of the tick's open-position table — the fixed
`initial_capital` baseline plus unrealized P&L — appended to the curve. -/
theorem run_tick_equity (cfg : EngineConfig) (rp : RiskParams) (md : MarketData)
    (signals : ℤ → List Signal) (can_open : Signal → List Position → ℚ → Bool)
    (st : LoopState) (t : ℤ) :
    (run_tick cfg rp md signals can_open st t).equity_curve =
      st.equity_curve ++
        [(t, calculate_equity cfg.initial_capital md
              (run_tick cfg rp md signals can_open st t).positions t)] := rfl

/-- C2 (counterexample): a concrete backtest with initial capital 10000 and
exactly one winning trade of +500 and one losing trade of −200, both closed
before the end of the backtest, yields `roi = 0`, not `0.03`: the realized
gains vanish from the equity, whose recorded values stay at the fixed 10000
baseline. -/
theorem scenario_roi_is_zero :
    scenarioRun.trades.map ClosedTrade.profit_loss = [500, -200] ∧
    scenarioRun.trades.map ClosedTrade.exit_time = [2, 4] ∧
    scenarioCfg.end_date = 10 ∧
    scenarioMetrics.initial_capital = 10000 ∧
    scenarioMetrics.win_rate = 1/2 ∧
    scenarioMetrics.profit_factor = PFloat.val (5/2) ∧
    scenarioMetrics.roi = 0 ∧
    ¬ scenarioMetrics.roi = 3/100 := by
  decide!

/-- C2 (amended): the equity recorded at each tick is the fixed
`initial_capital` baseline plus the unrealized P&L of the open positions —
realized gains and losses of closed trades are never folded into the
baseline — so the scenario's equity curve stays at 10000 throughout and its
final metrics are `roi = 0`, `win_rate = 0.5`, `profit_factor = 2.5`. -/
theorem equity_fixed_baseline :
    (∀ cfg rp md signals can_open st t,
      (run_tick cfg rp md signals can_open st t).equity_curve =
        st.equity_curve ++
          [(t, cfg.initial_capital +
            ((run_tick cfg rp md signals can_open st t).positions.map
              (fun p => unrealized_pnl p (engine_close_price md p.pair t))).sum)]) ∧
    scenarioRun.equity_curve.map Prod.snd =
      [10000, 10000, 10000, 10000, 10000, 10000] ∧
    scenarioRun.trades.map ClosedTrade.profit_loss = [500, -200] ∧
    scenarioMetrics.roi = 0 ∧
    scenarioMetrics.win_rate = 1/2 ∧
    scenarioMetrics.profit_factor = PFloat.val (5/2) :=
  ⟨fun _ _ _ _ _ _ _ => rfl, by decide!⟩

/-! ### Equity-curve timestamps -/

theorem time_index_sorted (all : List ℤ) (s e : ℤ) :
    List.Sorted (· < ·) (create_time_index all s e) := by
  unfold create_time_index
  have hsorted : List.Sorted (· ≤ ·) (List.insertionSort (· ≤ ·) all.dedup) :=
    List.sorted_insertionSort (· ≤ ·) all.dedup
  have hnodup : (List.insertionSort (· ≤ ·) all.dedup).Nodup :=
    (List.perm_insertionSort (· ≤ ·) all.dedup).nodup_iff.mpr (List.nodup_dedup all)
  exact List.Pairwise.sublist (List.filter_sublist _) (hsorted.lt_of_le hnodup)

theorem time_index_mem (all : List ℤ) (s e t : ℤ)
    (h : t ∈ create_time_index all s e) : s ≤ t ∧ t ≤ e := by
  unfold create_time_index at h
  have := (List.mem_filter.mp h).2
  simp only [Bool.and_eq_true, decide_eq_true_eq] at this
  exact this

theorem foldl_run_tick_timestamps (cfg : EngineConfig) (rp : RiskParams)
    (md : MarketData) (signals : ℤ → List Signal)
    (can_open : Signal → List Position → ℚ → Bool) :
    ∀ (ts : List ℤ) (st : LoopState),
      ((ts.foldl (run_tick cfg rp md signals can_open) st).equity_curve).map Prod.fst =
        st.equity_curve.map Prod.fst ++ ts := by
  intro ts
  induction ts with
  | nil => intro st; simp
  | cons t rest ih =>
    intro st
    rw [List.foldl_cons, ih, run_tick_equity, List.map_append]
    simp

theorem run_curve_timestamps (cfg : EngineConfig) (rp : RiskParams)
    (md : MarketData) (signals : ℤ → List Signal)
    (can_open : Signal → List Position → ℚ → Bool) :
    (run cfg rp md signals can_open).equity_curve.map Prod.fst =
      cfg.start_date ::
        create_time_index (all_bar_timestamps md) cfg.start_date cfg.end_date := by
  show ((create_time_index (all_bar_timestamps md) cfg.start_date cfg.end_date).foldl
      (run_tick cfg rp md signals can_open)
      { equity := cfg.initial_capital
        equity_curve := [(cfg.start_date, cfg.initial_capital)]
        trades := [], positions := [], next_id := 0 }).equity_curve.map Prod.fst = _
  rw [foldl_run_tick_timestamps]
  rfl

/-- C8 (counterexample): when a bar falls exactly on `start_date`, the first
loop tick repeats the initial point's timestamp, so the equity curve's
timestamps are not strictly increasing: with bars at 0 and 5 and
`start_date = 0` the curve's timestamps are `[0, 0, 5]`. -/
theorem equity_curve_not_strictly_increasing :
    startBarRun.equity_curve.map Prod.fst = [0, 0, 5] ∧
    ¬ List.Pairwise (· < ·) (startBarRun.equity_curve.map Prod.fst) := by
  decide!

/-- C8 (amended): for every input with `start_date ≤ end_date`, the equity
curve of `run` — the initial point at `start_date` followed by one point per
timeline tick — has nondecreasing timestamps, all within
`[start_date, end_date]`, and the tick portion (everything after the initial
point) is strictly increasing; the first tick may coincide with
`start_date`, which is the only way two equal timestamps occur. -/
theorem equity_curve_timestamps (cfg : EngineConfig) (rp : RiskParams)
    (md : MarketData) (signals : ℤ → List Signal)
    (can_open : Signal → List Position → ℚ → Bool)
    (h : cfg.start_date ≤ cfg.end_date) :
    List.Pairwise (· ≤ ·) ((run cfg rp md signals can_open).equity_curve.map Prod.fst) ∧
    List.Pairwise (· < ·) ((run cfg rp md signals can_open).equity_curve.map Prod.fst).tail ∧
    ∀ x ∈ (run cfg rp md signals can_open).equity_curve.map Prod.fst,
      cfg.start_date ≤ x ∧ x ≤ cfg.end_date := by
  rw [run_curve_timestamps]
  have hsorted := time_index_sorted (all_bar_timestamps md) cfg.start_date cfg.end_date
  refine ⟨?_, ?_, ?_⟩
  · exact List.Pairwise.cons
      (fun t ht => (time_index_mem _ _ _ t ht).1)
      (hsorted.imp le_of_lt)
  · exact hsorted
  · intro x hx
    rcases List.mem_cons.mp hx with hx | hx
    · exact ⟨le_of_eq hx.symm, hx ▸ h⟩
    · exact time_index_mem _ _ _ x hx

/-- Witness for `equity_curve_timestamps` at the concrete scenario run. -/
theorem equity_curve_timestamps_witness :
    scenarioCfg.start_date ≤ scenarioCfg.end_date ∧
    List.Pairwise (· ≤ ·) (scenarioRun.equity_curve.map Prod.fst) ∧
    List.Pairwise (· < ·) (scenarioRun.equity_curve.map Prod.fst).tail ∧
    ∀ x ∈ scenarioRun.equity_curve.map Prod.fst,
      scenarioCfg.start_date ≤ x ∧ x ≤ scenarioCfg.end_date :=
  ⟨by decide,
    equity_curve_timestamps scenarioCfg {} scenarioData scenarioSignals
      (fun _ _ _ => true) (by decide)⟩

/-! ### Unreachability of TAKE_PROFIT2 -/

theorem update_trailing_stop_tp1_flag (p : Position) (price : ℚ) :
    (update_trailing_stop p price).exit_take_profit1 = p.exit_take_profit1 := by
  unfold update_trailing_stop
  cases p.direction <;> dsimp only <;> split <;> rfl

theorem check_exit_tp1_flag (d : ℤ) (p : Position) (price : ℚ) (t : ℤ) :
    ((check_exit_conditions d p price t).2).exit_take_profit1 = p.exit_take_profit1 := by
  unfold check_exit_conditions
  split_ifs <;>
    first
      | rfl
      | (dsimp only; split <;> exact update_trailing_stop_tp1_flag p price)

theorem check_exit_no_tp2 (d : ℤ) (p : Position) (price : ℚ) (t : ℤ)
    (h : p.exit_take_profit1 = false) :
    (check_exit_conditions d p price t).1 ≠ some .TAKE_PROFIT2 := by
  unfold check_exit_conditions
  split_ifs with h1 h2 h3 h4 <;>
    first
      | (dsimp only; split <;> simp)
      | simp_all

theorem update_positions_no_tp2 (d : ℤ) (md : MarketData) (t : ℤ) :
    ∀ ps : List Position, (∀ p ∈ ps, p.exit_take_profit1 = false) →
      (∀ p ∈ (update_positions d md t ps).1, p.exit_take_profit1 = false) ∧
      (∀ tr ∈ (update_positions d md t ps).2, tr.exit_reason ≠ .TAKE_PROFIT2) := by
  intro ps
  induction ps with
  | nil =>
    intro _
    exact ⟨fun p hp => absurd hp (List.not_mem_nil p),
           fun tr htr => absurd htr (List.not_mem_nil tr)⟩
  | cons p rest ih =>
    intro h
    have hp := h p (List.mem_cons_self p rest)
    have hrest := ih (fun q hq => h q (List.mem_cons_of_mem p hq))
    unfold update_positions
    dsimp only
    cases hr : (check_exit_conditions d p (engine_close_price md p.pair t) t).1 with
    | some reason =>
      refine ⟨hrest.1, ?_⟩
      intro tr htr
      rcases List.mem_cons.mp htr with h1 | h1
      · have hne := check_exit_no_tp2 d p (engine_close_price md p.pair t) t hp
        rw [hr] at hne
        subst h1
        intro hcontra
        exact hne (by rw [show (close_position
          (check_exit_conditions d p (engine_close_price md p.pair t) t).2 t
          (engine_close_price md p.pair t) reason).exit_reason = reason from rfl] at hcontra; rw [hcontra])
      · exact hrest.2 tr h1
    | none =>
      refine ⟨?_, hrest.2⟩
      intro q hq
      rcases List.mem_cons.mp hq with h1 | h1
      · subst h1
        rw [check_exit_tp1_flag]
        exact hp
      · exact hrest.1 q h1

theorem open_fold_tp1_flag (rp : RiskParams) (t : ℤ) (equity : ℚ)
    (can_open : Signal → List Position → ℚ → Bool) :
    ∀ (sigs : List Signal) (acc : List Position × ℕ),
      (∀ p ∈ acc.1, p.exit_take_profit1 = false) →
      ∀ p ∈ (sigs.foldl
        (fun (acc : List Position × ℕ) sig =>
          if can_open sig acc.1 equity then
            (acc.1 ++ [open_position rp acc.2 sig t equity], acc.2 + 1)
          else acc) acc).1, p.exit_take_profit1 = false := by
  intro sigs
  induction sigs with
  | nil => intro acc h; exact h
  | cons sig rest ih =>
    intro acc h
    rw [List.foldl_cons]
    apply ih
    by_cases hc : can_open sig acc.1 equity
    · rw [if_pos hc]
      intro p hp
      rcases List.mem_append.mp hp with h1 | h1
      · exact h p h1
      · rw [List.mem_singleton.mp h1]; rfl
    · rw [if_neg hc]
      exact h

/-- Invariant carried through the backtest loop: no open position carries the
`exit_take_profit1` key, and no ledger entry has reason `TAKE_PROFIT2`. -/
def StateInv (st : LoopState) : Prop :=
  (∀ p ∈ st.positions, p.exit_take_profit1 = false) ∧
  (∀ tr ∈ st.trades, tr.exit_reason ≠ .TAKE_PROFIT2)

theorem run_tick_inv (cfg : EngineConfig) (rp : RiskParams) (md : MarketData)
    (signals : ℤ → List Signal) (can_open : Signal → List Position → ℚ → Bool)
    (st : LoopState) (t : ℤ) (h : StateInv st) :
    StateInv (run_tick cfg rp md signals can_open st t) := by
  obtain ⟨hpos, htr⟩ := h
  have hupd := update_positions_no_tp2 cfg.max_position_duration_hours md t
    st.positions hpos
  constructor
  · exact open_fold_tp1_flag rp t st.equity can_open (signals t) _ hupd.1
  · intro tr htr'
    rcases List.mem_append.mp htr' with h1 | h1
    · exact htr tr h1
    · exact hupd.2 tr h1

theorem foldl_run_tick_inv (cfg : EngineConfig) (rp : RiskParams)
    (md : MarketData) (signals : ℤ → List Signal)
    (can_open : Signal → List Position → ℚ → Bool) :
    ∀ (ts : List ℤ) (st : LoopState), StateInv st →
      StateInv (ts.foldl (run_tick cfg rp md signals can_open) st) := by
  intro ts
  induction ts with
  | nil => intro st h; exact h
  | cons t rest ih =>
    intro st h
    rw [List.foldl_cons]
    exact ih _ (run_tick_inv cfg rp md signals can_open st t h)

/-- C5: `TAKE_PROFIT2` is unreachable — every position the loop creates
starts without the `exit_take_profit1` key, nothing ever inserts it (a
tier-1 hit closes the whole position instead), and `_check_exit_conditions`
only returns `TAKE_PROFIT2` when that key is present — so no closed trade of
any run, for any market data, strategy and admission rule, has exit reason
`TAKE_PROFIT2`. -/
theorem no_take_profit2_trades (cfg : EngineConfig) (rp : RiskParams)
    (md : MarketData) (signals : ℤ → List Signal)
    (can_open : Signal → List Position → ℚ → Bool) :
    ∀ tr ∈ (run cfg rp md signals can_open).trades,
      tr.exit_reason ≠ .TAKE_PROFIT2 := by
  intro tr htr
  have hinv := foldl_run_tick_inv cfg rp md signals can_open
    (create_time_index (all_bar_timestamps md) cfg.start_date cfg.end_date)
    { equity := cfg.initial_capital
      equity_curve := [(cfg.start_date, cfg.initial_capital)]
      trades := [], positions := [], next_id := 0 }
    ⟨fun p hp => absurd hp (List.not_mem_nil p),
     fun q hq => absurd hq (List.not_mem_nil q)⟩
  have htr' : tr ∈ (run cfg rp md signals can_open).trades := htr
  unfold run at htr'
  dsimp only at htr'
  rcases List.mem_append.mp htr' with h1 | h1
  · exact hinv.2 tr h1
  · rcases List.mem_map.mp h1 with ⟨p, _, hclose⟩
    rw [← hclose]
    intro hcontra
    exact ExitReason.noConfusion (Option.some.inj (congrArg some hcontra))

/-- Witness for `no_take_profit2_trades`: the winning trade of the concrete
scenario run is in the ledger and its exit reason is not `TAKE_PROFIT2`. -/
theorem no_take_profit2_trades_witness :
    (⟨0, "BTC/USDT", .LONG, 100, 1, 200, 205/2, 2, .TAKE_PROFIT1, 500⟩ : ClosedTrade) ∈
      (run scenarioCfg {} scenarioData scenarioSignals (fun _ _ _ => true)).trades ∧
    (⟨0, "BTC/USDT", .LONG, 100, 1, 200, 205/2, 2, .TAKE_PROFIT1, 500⟩ :
      ClosedTrade).exit_reason ≠ .TAKE_PROFIT2 :=
  ⟨by decide!,
    no_take_profit2_trades scenarioCfg {} scenarioData scenarioSignals
      (fun _ _ _ => true) _ (by decide!)⟩

/-! ### Trailing-stop ratchet -/

theorem update_trailing_direction (p : Position) (price : ℚ) :
    (update_trailing_stop p price).direction = p.direction := by
  unfold update_trailing_stop
  cases p.direction <;> dsimp only <;> split <;> rfl

theorem update_trailing_pct (p : Position) (price : ℚ) :
    (update_trailing_stop p price).trailing_stop_pct = p.trailing_stop_pct := by
  unfold update_trailing_stop
  cases p.direction <;> dsimp only <;> split <;> rfl

theorem update_trailing_long_pos (p : Position) (price : ℚ)
    (hd : p.direction = .LONG) (hp : price > p.highest_price.getD p.entry_price) :
    update_trailing_stop p price =
      { p with highest_price := some price,
               trailing_stop := some (price * (1 - p.trailing_stop_pct)),
               trailing_activated := true } := by
  unfold update_trailing_stop
  rw [hd]
  dsimp only
  rw [if_pos hp]

theorem update_trailing_long_neg (p : Position) (price : ℚ)
    (hd : p.direction = .LONG) (hp : ¬ price > p.highest_price.getD p.entry_price) :
    update_trailing_stop p price =
      { p with highest_price := some (p.highest_price.getD p.entry_price) } := by
  unfold update_trailing_stop
  rw [hd]
  dsimp only
  rw [if_neg hp]

theorem update_trailing_short_pos (p : Position) (price : ℚ)
    (hd : p.direction = .SHORT) (hp : price < p.lowest_price.getD p.entry_price) :
    update_trailing_stop p price =
      { p with lowest_price := some price,
               trailing_stop := some (price * (1 + p.trailing_stop_pct)),
               trailing_activated := true } := by
  unfold update_trailing_stop
  rw [hd]
  dsimp only
  rw [if_pos hp]

theorem update_trailing_short_neg (p : Position) (price : ℚ)
    (hd : p.direction = .SHORT) (hp : ¬ price < p.lowest_price.getD p.entry_price) :
    update_trailing_stop p price =
      { p with lowest_price := some (p.lowest_price.getD p.entry_price) } := by
  unfold update_trailing_stop
  rw [hd]
  dsimp only
  rw [if_neg hp]

theorem update_trailing_consistent (p : Position) (price : ℚ)
    (h : TrailConsistent p) : TrailConsistent (update_trailing_stop p price) := by
  cases hdir : p.direction with
  | LONG =>
    by_cases hp : price > p.highest_price.getD p.entry_price
    · rw [update_trailing_long_pos p price hdir hp]
      intro v hv
      dsimp only at hv ⊢
      refine ⟨fun _ => ⟨price, rfl, (Option.some.inj hv).symm⟩, fun hS => ?_⟩
      rw [hdir] at hS
      exact absurd hS (by decide)
    · rw [update_trailing_long_neg p price hdir hp]
      intro v hv
      dsimp only at hv ⊢
      rcases (h v hv).1 hdir with ⟨h0, hh, hveq⟩
      refine ⟨fun _ => ⟨h0, by rw [hh]; rfl, hveq⟩, fun hS => ?_⟩
      rw [hdir] at hS
      exact absurd hS (by decide)
  | SHORT =>
    by_cases hp : price < p.lowest_price.getD p.entry_price
    · rw [update_trailing_short_pos p price hdir hp]
      intro v hv
      dsimp only at hv ⊢
      refine ⟨fun hL => ?_, fun _ => ⟨price, rfl, (Option.some.inj hv).symm⟩⟩
      rw [hdir] at hL
      exact absurd hL (by decide)
    · rw [update_trailing_short_neg p price hdir hp]
      intro v hv
      dsimp only at hv ⊢
      rcases (h v hv).2 hdir with ⟨l0, hl, hveq⟩
      refine ⟨fun hL => ?_, fun _ => ⟨l0, by rw [hl]; rfl, hveq⟩⟩
      rw [hdir] at hL
      exact absurd hL (by decide)

theorem trailing_step_long (p : Position) (price : ℚ)
    (hd : p.direction = .LONG) (hpct : p.trailing_stop_pct ≤ 1)
    (hcons : TrailConsistent p) (v : ℚ) (hv : p.trailing_stop = some v) :
    ∃ w, (update_trailing_stop p price).trailing_stop = some w ∧ v ≤ w := by
  by_cases hp : price > p.highest_price.getD p.entry_price
  · refine ⟨price * (1 - p.trailing_stop_pct),
      by rw [update_trailing_long_pos p price hd hp], ?_⟩
    rcases (hcons v hv).1 hd with ⟨h0, hh, hveq⟩
    have hgd : p.highest_price.getD p.entry_price = h0 := by rw [hh]; rfl
    rw [hveq]
    have h1 : h0 ≤ price := le_of_lt (hgd ▸ hp)
    have h2 : (0 : ℚ) ≤ 1 - p.trailing_stop_pct := by linarith
    exact mul_le_mul_of_nonneg_right h1 h2
  · exact ⟨v, by rw [update_trailing_long_neg p price hd hp]; exact hv, le_refl v⟩

theorem trailing_step_short (p : Position) (price : ℚ)
    (hd : p.direction = .SHORT) (hpct : 0 ≤ p.trailing_stop_pct)
    (hcons : TrailConsistent p) (v : ℚ) (hv : p.trailing_stop = some v) :
    ∃ w, (update_trailing_stop p price).trailing_stop = some w ∧ w ≤ v := by
  by_cases hp : price < p.lowest_price.getD p.entry_price
  · refine ⟨price * (1 + p.trailing_stop_pct),
      by rw [update_trailing_short_pos p price hd hp], ?_⟩
    rcases (hcons v hv).2 hd with ⟨l0, hl, hveq⟩
    have hgd : p.lowest_price.getD p.entry_price = l0 := by rw [hl]; rfl
    rw [hveq]
    have h1 : price ≤ l0 := le_of_lt (hgd ▸ hp)
    have h2 : (0 : ℚ) ≤ 1 + p.trailing_stop_pct := by linarith
    exact mul_le_mul_of_nonneg_right h1 h2
  · exact ⟨v, by rw [update_trailing_short_neg p price hd hp]; exact hv, le_refl v⟩

theorem trailing_fold_long :
    ∀ (prices : List ℚ) (p : Position), p.direction = .LONG →
      p.trailing_stop_pct ≤ 1 → TrailConsistent p →
      ∀ v, p.trailing_stop = some v →
        ∃ w, (prices.foldl update_trailing_stop p).trailing_stop = some w ∧ v ≤ w := by
  intro prices
  induction prices with
  | nil => intro p _ _ _ v hv; exact ⟨v, hv, le_refl v⟩
  | cons price rest ih =>
    intro p hd hpct hcons v hv
    rw [List.foldl_cons]
    rcases trailing_step_long p price hd hpct hcons v hv with ⟨w1, hw1, hvw1⟩
    rcases ih (update_trailing_stop p price)
      (by rw [update_trailing_direction]; exact hd)
      (by rw [update_trailing_pct]; exact hpct)
      (update_trailing_consistent p price hcons) w1 hw1 with ⟨w, hw, hle⟩
    exact ⟨w, hw, le_trans hvw1 hle⟩

theorem trailing_fold_short :
    ∀ (prices : List ℚ) (p : Position), p.direction = .SHORT →
      0 ≤ p.trailing_stop_pct → TrailConsistent p →
      ∀ v, p.trailing_stop = some v →
        ∃ w, (prices.foldl update_trailing_stop p).trailing_stop = some w ∧ w ≤ v := by
  intro prices
  induction prices with
  | nil => intro p _ _ _ v hv; exact ⟨v, hv, le_refl v⟩
  | cons price rest ih =>
    intro p hd hpct hcons v hv
    rw [List.foldl_cons]
    rcases trailing_step_short p price hd hpct hcons v hv with ⟨w1, hw1, hvw1⟩
    rcases ih (update_trailing_stop p price)
      (by rw [update_trailing_direction]; exact hd)
      (by rw [update_trailing_pct]; exact hpct)
      (update_trailing_consistent p price hcons) w1 hw1 with ⟨w, hw, hle⟩
    exact ⟨w, hw, le_trans hle hvw1⟩

/-- C9: for a LONG position with a consistently maintained trailing state
and a sensible trailing percentage (`0 ≤ pct ≤ 1`), the trailing-stop level
never decreases across any sequence of `_update_trailing_stop` calls, and a
single call sets it to `price × (1 − pct)` — activating trailing — exactly
when the price strictly exceeds the running highest price, leaving it (and
the activation flag) unchanged otherwise; for a SHORT position the level
never increases. -/
theorem trailing_stop_ratchet (p : Position) (price : ℚ) (prices : List ℚ)
    (hcons : TrailConsistent p) (h0 : 0 ≤ p.trailing_stop_pct)
    (h1 : p.trailing_stop_pct ≤ 1) :
    (p.direction = .LONG →
      (∀ v w, p.trailing_stop = some v →
        (prices.foldl update_trailing_stop p).trailing_stop = some w → v ≤ w) ∧
      (price > p.highest_price.getD p.entry_price →
        (update_trailing_stop p price).trailing_stop =
          some (price * (1 - p.trailing_stop_pct)) ∧
        (update_trailing_stop p price).trailing_activated = true) ∧
      (¬ price > p.highest_price.getD p.entry_price →
        (update_trailing_stop p price).trailing_stop = p.trailing_stop ∧
        (update_trailing_stop p price).trailing_activated = p.trailing_activated)) ∧
    (p.direction = .SHORT →
      ∀ v w, p.trailing_stop = some v →
        (prices.foldl update_trailing_stop p).trailing_stop = some w → w ≤ v) := by
  constructor
  · intro hd
    refine ⟨?_, ?_, ?_⟩
    · intro v w hv hw
      rcases trailing_fold_long prices p hd h1 hcons v hv with ⟨w1, hw1, hle⟩
      rw [hw] at hw1
      exact (Option.some.inj hw1) ▸ hle
    · intro hp
      rw [update_trailing_long_pos p price hd hp]
      exact ⟨rfl, rfl⟩
    · intro hp
      rw [update_trailing_long_neg p price hd hp]
      exact ⟨rfl, rfl⟩
  · intro hd v w hv hw
    rcases trailing_fold_short prices p hd h0 hcons v hv with ⟨w1, hw1, hle⟩
    rw [hw] at hw1
    exact (Option.some.inj hw1) ▸ hle

/-- Witness for `trailing_stop_ratchet`: a LONG position with running high
110 and trailing level `110 × 0.99 = 108.9`, updated at price 120. -/
theorem trailing_stop_ratchet_witness :
    (ratchetPos.direction = .LONG →
      (∀ v w, ratchetPos.trailing_stop = some v →
        (([120] : List ℚ).foldl update_trailing_stop ratchetPos).trailing_stop =
          some w → v ≤ w) ∧
      ((120 : ℚ) > ratchetPos.highest_price.getD ratchetPos.entry_price →
        (update_trailing_stop ratchetPos 120).trailing_stop =
          some (120 * (1 - ratchetPos.trailing_stop_pct)) ∧
        (update_trailing_stop ratchetPos 120).trailing_activated = true) ∧
      (¬ (120 : ℚ) > ratchetPos.highest_price.getD ratchetPos.entry_price →
        (update_trailing_stop ratchetPos 120).trailing_stop =
          ratchetPos.trailing_stop ∧
        (update_trailing_stop ratchetPos 120).trailing_activated =
          ratchetPos.trailing_activated)) ∧
    (ratchetPos.direction = .SHORT →
      ∀ v w, ratchetPos.trailing_stop = some v →
        (([120] : List ℚ).foldl update_trailing_stop ratchetPos).trailing_stop =
          some w → w ≤ v) :=
  trailing_stop_ratchet ratchetPos 120 [120]
    (fun v hv =>
      ⟨fun _ => ⟨110, rfl, by
        have hv' : (1089/10 : ℚ) = v := Option.some.inj hv
        rw [← hv']
        norm_num [ratchetPos]⟩,
       fun hS => absurd hS (by decide)⟩)
    (by norm_num [ratchetPos]) (by norm_num [ratchetPos])

end RobotTrading
